import Mathlib

/-!
Verification development for the Reinforcement-Learning-Visualizer repository.

Shallow embedding of the core components of the repository:
* `World` — `src/backend/environment/world.py` (grid geometry, obstacle map,
  start/goal placement, `is_obstacle`);
* `QLearningAgent` — `src/backend/agent/q_learning_agent.py` (pose, Q-table,
  `step`, `update_q_table`, `reset`, `is_valid_position`);
* `Trainer.find_optimal_path` — `src/backend/training/trainer.py`.

Conventions of the embedding:
* Python ints are modelled by `ℤ`; Python floats by `ℚ` (the reward and
  learning-rate arithmetic of this program is plain field arithmetic on
  small decimal constants, which `ℚ` represents exactly).
* A numpy position array `position` is a pair `ℤ × ℤ`, a state tuple is
  `ℤ × ℤ × ℤ`.
* The `defaultdict(lambda: np.zeros(4))` Q-table is an association list keyed
  by state; a lookup of a missing key yields the all-zero vector, and an
  assignment `d[s][a] = x` is a shadowing insert (`qSet`) of the updated
  vector, so later lookups of `s` see the new vector and every other key is
  untouched.
* Python `%` on ints agrees with `Int.emod` (both give a result in `[0, n)`
  for a positive modulus `n`), so `(direction - 1) % 4` is written verbatim.
* Randomness (`random.sample`, `random.choice`) is injected as explicit
  parameters: the sampled index list and choice indices; `random.choice(l)`
  is modelled as picking the element of `l` at an arbitrary injected index,
  reduced modulo `l.length`.
-/

/-- Position of a cell: `(row, column)` pair of ints, the shape of the numpy
arrays the program passes around. -/
abbrev Pos : Type := ℤ × ℤ

/-- Agent state as used for Q-table lookup: `(position_x, position_y, direction)`. -/
abbrev State : Type := ℤ × ℤ × ℤ

/-- One row of the Q-table: 4 action-values, `np.zeros(len(ACTIONS))` shaped. -/
abbrev QVec : Type := Fin 4 → ℚ

/-- Maximum of a 4-entry action-value row, as computed by `np.max`. -/
def npMax (v : QVec) : ℚ := max (max (max (v 0) (v 1)) (v 2)) (v 3)

/-- First index attaining the maximum of a 4-entry row, as computed by
`np.argmax` (ties broken toward the lowest index). -/
def npArgmax (v : QVec) : Fin 4 :=
  if v 1 ≤ v 0 ∧ v 2 ≤ v 0 ∧ v 3 ≤ v 0 then 0
  else if v 2 ≤ v 1 ∧ v 3 ≤ v 1 then 1
  else if v 3 ≤ v 2 then 2
  else 3

/-- The grid-world environment (`world.py`).  Cell kinds on the grid follow
the source constants: `EMPTY = 0`, `OBSTACLE = 1`, `AGENT = 2`, `GOAL = 3`.
`grid` is total over `ℤ × ℤ`; the program only ever reads cells in
`[0, size) × [0, size)`. -/
structure World where
  size : ℕ
  grid : Pos → ℤ
  start_position : Pos
  goal_position : Pos
  obstacles : List Pos

/-- Embedding of `World.is_obstacle`: `False` for out-of-bounds positions
(defensive default in the source), otherwise whether the grid cell holds
`OBSTACLE`. -/
def World.is_obstacle (w : World) (position : Pos) : Bool :=
  if ¬ (0 ≤ position.1 ∧ position.1 < (w.size : ℤ) ∧
        0 ≤ position.2 ∧ position.2 < (w.size : ℤ)) then
    false
  else
    w.grid position == 1

/-- The tabular Q-learning agent (`q_learning_agent.py`): environment handle,
hyperparameters, Q-table and current pose. -/
structure QLearningAgent where
  world : World
  learning_rate : ℚ
  discount_factor : ℚ
  exploration_rate : ℚ
  q_table : List (State × QVec)
  position : Pos
  direction : ℤ

/-- Read the Q-table row of a state; a state with no entry is the all-zero
vector (the `defaultdict(lambda: np.zeros(4))` default). -/
def qGet (t : List (State × QVec)) (s : State) : QVec :=
  (List.lookup s t).getD (fun _ => (0 : ℚ))

/-- Write a Q-table row for a state: shadowing insert at the front, so that
a later `qGet` of `s` sees `v` and every other key is unaffected. -/
def qSet (t : List (State × QVec)) (s : State) (v : QVec) : List (State × QVec) :=
  (s, v) :: t

/-- Embedding of `QLearningAgent.get_state`: the `(x, y, direction)` tuple. -/
def QLearningAgent.get_state (a : QLearningAgent) : State :=
  (a.position.1, a.position.2, a.direction)

/-- Embedding of `QLearningAgent.reset`: restore the pose to the world's start
position facing North (0) and return the resulting state; the Q-table field is
not touched. -/
def QLearningAgent.reset (a : QLearningAgent) : QLearningAgent × State :=
  let a' : QLearningAgent := { a with position := a.world.start_position, direction := 0 }
  (a', a'.get_state)

/-- Embedding of `QLearningAgent.is_valid_position`: inside the grid bounds
and not an obstacle. -/
def QLearningAgent.is_valid_position (a : QLearningAgent) (position : Pos) : Bool :=
  if position.1 < 0 ∨ position.1 ≥ (a.world.size : ℤ) ∨
     position.2 < 0 ∨ position.2 ≥ (a.world.size : ℤ) then
    false
  else if a.world.is_obstacle position then
    false
  else
    true

/-- The action branch of `QLearningAgent.step` (lines 107-133): candidate
position and new direction produced by the `if action == 0 / 1 / 2 / 3`
chain.  Forward (0) and Backward (3) move one cell along/against the facing
direction and keep the direction; Turn Right (1) and Turn Left (2) keep the
position and rotate the direction by `+1`/`-1` modulo 4; any other action
value falls through the chain and changes nothing. -/
def QLearningAgent.moveResult (a : QLearningAgent) (action : ℤ) : Pos × ℤ :=
  if action = 0 then
    (if a.direction = 0 then (a.position.1 - 1, a.position.2)
     else if a.direction = 1 then (a.position.1, a.position.2 + 1)
     else if a.direction = 2 then (a.position.1 + 1, a.position.2)
     else if a.direction = 3 then (a.position.1, a.position.2 - 1)
     else a.position,
     a.direction)
  else if action = 1 then
    (a.position, (a.direction + 1) % 4)
  else if action = 2 then
    (a.position, (a.direction - 1) % 4)
  else if action = 3 then
    (if a.direction = 0 then (a.position.1 + 1, a.position.2)
     else if a.direction = 1 then (a.position.1, a.position.2 - 1)
     else if a.direction = 2 then (a.position.1 - 1, a.position.2)
     else if a.direction = 3 then (a.position.1, a.position.2 + 1)
     else a.position,
     a.direction)
  else
    (a.position, a.direction)

/-- Embedding of `QLearningAgent.step`: apply the action to the pose, then
revert the position with reward `-1.0` if the new position is invalid;
otherwise reward `+10.0` and `done` on reaching the goal, else the step cost
`-0.1`.  Returns the mutated agent together with `(reward, done)` (the
source returns `get_state()` of the mutated self, recoverable from the
returned agent). -/
def QLearningAgent.step (a : QLearningAgent) (action : ℤ) : QLearningAgent × ℚ × Bool :=
  let old_position := a.position
  let m := a.moveResult action
  let a1 : QLearningAgent := { a with position := m.1, direction := m.2 }
  if ¬ (a1.is_valid_position a1.position = true) then
    ({ a1 with position := old_position }, -1, false)
  else if a1.position = a1.world.goal_position then
    (a1, 10, true)
  else
    (a1, -1/10, false)

/-- Embedding of `QLearningAgent.update_q_table`: the one-step tabular
Q-learning rule
`Q[s][a] += learning_rate * (reward + discount_factor * max_next_q - Q[s][a])`
with `max_next_q = np.max(q_table[next_state]) if not done else 0`. -/
def QLearningAgent.update_q_table (a : QLearningAgent) (state : State) (action : Fin 4)
    (reward : ℚ) (next_state : State) (done : Bool) : QLearningAgent :=
  let current_q := qGet a.q_table state action
  let max_next_q : ℚ := if ¬ (done = true) then npMax (qGet a.q_table next_state) else 0
  let new_q := current_q + a.learning_rate * (reward + a.discount_factor * max_next_q - current_q)
  { a with q_table := qSet a.q_table state (Function.update (qGet a.q_table state) action new_q) }

/-- Run a list of actions through `step`, keeping the mutated agent. -/
def runActions (a : QLearningAgent) (acts : List ℤ) : QLearningAgent :=
  acts.foldl (fun ag act => (ag.step act).1) a

/-- Number of updates of `Q[state][action]` by repeated identical calls to
`update_q_table`: the agent after `n` such calls. -/
def updIter (a : QLearningAgent) (s : State) (act : Fin 4) (r : ℚ) (s' : State)
    (d : Bool) (n : ℕ) : QLearningAgent :=
  (fun ag => QLearningAgent.update_q_table ag s act r s' d)^[n] a

/-- Value of `Q[state][action]` after `n` repeated identical calls to
`update_q_table`. -/
def qSeq (a : QLearningAgent) (s : State) (act : Fin 4) (r : ℚ) (s' : State)
    (d : Bool) (n : ℕ) : ℚ :=
  qGet (updIter a s act r s' d n).q_table s act

/-- The update target before the `n`-th repeated call: `reward` when `done`,
otherwise `reward + discount_factor * max(Q[next_state])` read from the table
as it stands after `n` calls. -/
def qTargetAt (a : QLearningAgent) (s : State) (act : Fin 4) (r : ℚ) (s' : State)
    (d : Bool) (n : ℕ) : ℚ :=
  if d then r else r + a.discount_factor * npMax (qGet (updIter a s act r s' d n).q_table s')

/-- Loop body of `Trainer.find_optimal_path` (`trainer.py` lines 100-117).
`fuel` is the structural-recursion budget; the call site passes
`fuel = max_steps`, which dominates the number of iterations of the source's
`while not done and steps < max_steps` loop (each iteration increments
`steps`), so the `fuel = 0` base case is only reached when the `while`
condition is false and the loop behaviour is reproduced exactly: greedy
`np.argmax` action, `step`, append the position, and break once
`steps > 2` and the last path entry equals the one two steps prior. -/
def Trainer.foLoop (a : QLearningAgent) (path : List Pos) (steps max_steps : ℕ)
    (done : Bool) : ℕ → List Pos
  | 0 => path
  | fuel + 1 =>
    if done || decide (max_steps ≤ steps) then path
    else
      let state := a.get_state
      let action : ℤ := ((npArgmax (qGet a.q_table state) : Fin 4) : ℕ)
      let res := a.step action
      let path' := path ++ [res.1.position]
      let steps' := steps + 1
      if decide (2 < steps') &&
          (path'.getD (path'.length - 1) (0, 0) == path'.getD (path'.length - 3) (0, 0)) then
        path'
      else
        Trainer.foLoop res.1 path' steps' max_steps res.2.2 fuel

/-- Embedding of `Trainer.find_optimal_path`: reset the agent, then follow the
greedy policy recording positions, stopping on `done`, on `steps` reaching
`max_steps`, or on the period-2 oscillation check. -/
def Trainer.find_optimal_path (agent : QLearningAgent) (max_steps : ℕ) : List Pos :=
  let a0 := agent.reset.1
  Trainer.foLoop a0 [a0.position] 0 max_steps false max_steps

/-- Number of obstacles placed by `World.reset`:
`int(self.size * self.size * self.obstacle_density)`.  Python `int()`
truncates toward zero; composed with the clamp to `ℕ` that the sample length
forces (`random.sample` rejects a negative count), truncation and floor
agree for every product, so the floor form is used. -/
def numObstacles (size : ℕ) (density : ℚ) : ℕ :=
  (Int.floor ((size * size : ℚ) * density)).toNat

/-- Obstacle coordinates derived from the sampled flat indices:
`(pos // size, pos % size)` for each sampled `pos`. -/
def obstacleCoords (size : ℕ) (sample : List ℕ) : List Pos :=
  sample.map (fun pos => (((pos / size : ℕ) : ℤ), ((pos % size : ℕ) : ℤ)))

/-- The grid after the obstacle-placing loop of `World.reset`: starting from
the all-`EMPTY` grid, write `OBSTACLE` (= 1) at each sampled coordinate. -/
def gridObs (size : ℕ) (sample : List ℕ) : Pos → ℤ :=
  (obstacleCoords size sample).foldl (fun g c => Function.update g c 1) (fun _ => 0)

/-- The `valid_positions` scan of `World.reset`: row-major list of the cells
whose grid value is `EMPTY` after obstacle placement. -/
def validPositions (size : ℕ) (sample : List ℕ) : List Pos :=
  (List.range size).flatMap
    (fun (i : ℕ) =>
      ((List.range size).filter
          (fun (j : ℕ) => gridObs size sample ((i : ℤ), (j : ℤ)) == 0)).map
        (fun (j : ℕ) => ((i : ℤ), (j : ℤ))))

/-- Model of `random.choice(l)`: the element of `l` at an arbitrary injected
index, reduced modulo the length (the default is never used when `l` is
non-empty). -/
def choiceL (l : List Pos) (i : ℕ) : Pos :=
  l.getD (i % l.length) (0, 0)

/-- Embedding of `World._manhattan_distance`. -/
def World.manhattan_distance (pos1 pos2 : Pos) : ℕ :=
  (pos1.1 - pos2.1).natAbs + (pos1.2 - pos2.2).natAbs

/-- Embedding of `World.reset` (`world.py` lines 40-88).  The random draws
are injected: `sample` stands for
`random.sample(range(size * size), num_obstacles)` (its contract — length
`num_obstacles`, distinct values below `size * size` — appears as hypotheses
of the theorems that need it), and `sIdx`/`gIdx` drive the two
`random.choice` calls.  Raising `ValueError` is modelled by `Except.error`. -/
def World.reset (size : ℕ) (sample : List ℕ) (sIdx gIdx : ℕ) : Except String World :=
  let vp := validPositions size sample
  if vp.length < 2 then
    .error "Not enough empty cells for agent and goal"
  else
    let start := choiceL vp sIdx
    let remaining := vp.erase start
    let min_distance := max 3 (size / 3)
    let far := remaining.filter (fun p => min_distance ≤ World.manhattan_distance start p)
    let goal := if far.isEmpty then choiceL remaining gIdx else choiceL far gIdx
    let grid2 := Function.update (Function.update (gridObs size sample) start 2) goal 3
    .ok ⟨size, grid2, start, goal, obstacleCoords size sample⟩

/-- Obstacle-placement postcondition of a `World.reset` outcome, used to
state the obstacle-count claim: on success, the obstacle list has exactly
`numObstacles size density` entries, all distinct, all inside the grid. -/
def obstaclesOk (size : ℕ) (density : ℚ) (e : Except String World) : Prop :=
  match e with
  | .ok w =>
      w.obstacles.length = numObstacles size density ∧ w.obstacles.Nodup ∧
        ∀ p ∈ w.obstacles, 0 ≤ p.1 ∧ p.1 < (size : ℤ) ∧ 0 ≤ p.2 ∧ p.2 < (size : ℤ)
  | .error _ => True

/-- Start/goal postcondition of a `World.reset` outcome: on success the two
positions are distinct, neither is an obstacle cell, and both are in
bounds. -/
def startGoalOk (e : Except String World) : Prop :=
  match e with
  | .ok w =>
      w.start_position ≠ w.goal_position ∧
        w.is_obstacle w.start_position = false ∧
        w.is_obstacle w.goal_position = false ∧
        (0 ≤ w.start_position.1 ∧ w.start_position.1 < (w.size : ℤ) ∧
          0 ≤ w.start_position.2 ∧ w.start_position.2 < (w.size : ℤ)) ∧
        (0 ≤ w.goal_position.1 ∧ w.goal_position.1 < (w.size : ℤ) ∧
          0 ≤ w.goal_position.2 ∧ w.goal_position.2 < (w.size : ℤ))
  | .error _ => True

/-- A 5 by 5 obstacle-free world with start `(0,0)` and goal `(0,4)`, the
concrete scenario of the specification. -/
def demoWorld5 : World :=
  ⟨5, fun _ => 0, (0, 0), (0, 4), []⟩

/-- Agent on `demoWorld5` at the start cell facing East (direction 1), with
the default hyperparameters of the source (`learning_rate=0.1`,
`discount_factor=0.9`, `exploration_rate=0.1`) and an empty Q-table. -/
def demoAgent5 : QLearningAgent :=
  ⟨demoWorld5, 1/10, 9/10, 1/10, [], (0, 0), 1⟩

/-- Agent standing exactly on the goal cell of `demoWorld5`, facing North. -/
def goalRotAgent : QLearningAgent :=
  ⟨demoWorld5, 1/10, 9/10, 1/10, [], (0, 4), 0⟩

/-- Reading back the row just written by `qSet`. -/
theorem qGet_qSet_self (t : List (State × QVec)) (s : State) (v : QVec) :
    qGet (qSet t s v) s = v := by
  simp [qGet, qSet, List.lookup]

/-- Reading any other row after `qSet` sees the previous table. -/
theorem qGet_qSet_other (t : List (State × QVec)) (s s'' : State) (v : QVec)
    (h : s'' ≠ s) : qGet (qSet t s v) s'' = qGet t s'' := by
  simp [qGet, qSet, List.lookup, beq_eq_false_iff_ne.mpr h]

/-- Row of the updated state after `update_q_table`: the stored row with the
`action` entry replaced by the Q-learning update of its old value. -/
theorem update_q_table_qGet_self (a : QLearningAgent) (s : State) (act : Fin 4)
    (r : ℚ) (s' : State) (d : Bool) :
    qGet (a.update_q_table s act r s' d).q_table s =
      Function.update (qGet a.q_table s) act
        (qGet a.q_table s act +
          a.learning_rate * (r + a.discount_factor *
            (if d then 0 else npMax (qGet a.q_table s')) - qGet a.q_table s act)) := by
  cases d <;> simp [QLearningAgent.update_q_table, qGet_qSet_self]

/-- Rows of other states are untouched by `update_q_table`. -/
theorem update_q_table_qGet_other (a : QLearningAgent) (s : State) (act : Fin 4)
    (r : ℚ) (s' : State) (d : Bool) (s'' : State) (h : s'' ≠ s) :
    qGet (a.update_q_table s act r s' d).q_table s'' = qGet a.q_table s'' := by
  simp [QLearningAgent.update_q_table, qGet_qSet_other _ _ _ _ h]

/-- C1: `update_q_table(state, action, reward, next_state, done)` replaces
`Q[state][action]` by
`Q[state][action] + α·(reward + γ·M − Q[state][action])` where `M = 0` when
`done` and otherwise the maximum of the 4 action-values stored for
`next_state`, a state with no entry (`List.lookup` returning `none`) being
treated as the all-zero vector — for every state, action index, reward,
next state and done flag. -/
theorem update_q_table_implements_q_rule (a : QLearningAgent) (state : State)
    (action : Fin 4) (reward : ℚ) (next_state : State) (done : Bool) :
    qGet (a.update_q_table state action reward next_state done).q_table state action =
      qGet a.q_table state action +
        a.learning_rate * (reward + a.discount_factor *
          (if done then 0 else
            max (max (max (((List.lookup next_state a.q_table).getD (fun _ => 0)) 0)
                  (((List.lookup next_state a.q_table).getD (fun _ => 0)) 1))
                (((List.lookup next_state a.q_table).getD (fun _ => 0)) 2))
              (((List.lookup next_state a.q_table).getD (fun _ => 0)) 3)) -
          qGet a.q_table state action) := by
  rw [update_q_table_qGet_self, Function.update_same]
  rfl

/-- C9: `Agent.reset()` sets the position to `world.start_position` and the
direction to 0 (North), `get_state()` right afterwards (also the returned
state) is `(start_x, start_y, 0)`, and the Q-table field is left entirely
unchanged. -/
theorem reset_restores_pose_preserves_table (a : QLearningAgent) :
    a.reset.1.position = a.world.start_position ∧
    a.reset.1.direction = 0 ∧
    a.reset.1.get_state = (a.world.start_position.1, a.world.start_position.2, 0) ∧
    a.reset.2 = a.reset.1.get_state ∧
    a.reset.1.q_table = a.q_table :=
  ⟨rfl, rfl, rfl, rfl, rfl⟩

/-- Position validity only reads the world, so it is unaffected by pose
updates of the agent record. -/
theorem is_valid_position_pose_irrel (a : QLearningAgent) (p : Pos) (d : ℤ) (q : Pos) :
    QLearningAgent.is_valid_position { a with position := p, direction := d } q =
      a.is_valid_position q :=
  rfl

/-- The direction component of the action branch is unchanged for non-turn
actions. -/
theorem moveResult_dir_of_not_turn (a : QLearningAgent) (action : ℤ)
    (h1 : action ≠ 1) (h2 : action ≠ 2) :
    (a.moveResult action).2 = a.direction := by
  by_cases hc0 : action = 0
  · simp [QLearningAgent.moveResult, hc0]
  · by_cases hc3 : action = 3
    · simp [QLearningAgent.moveResult, hc0, h1, h2, hc3]
    · simp [QLearningAgent.moveResult, hc0, h1, h2, hc3]

/-- Turn actions leave the candidate position at the current position. -/
theorem moveResult_pos_of_turn (a : QLearningAgent) (action : ℤ)
    (h : action = 1 ∨ action = 2) :
    (a.moveResult action).1 = a.position := by
  rcases h with h | h <;> subst h <;> simp [QLearningAgent.moveResult]

/-- C2: if the agent's current position is valid and the candidate position
computed by `step(action)` is invalid (out of bounds or an obstacle), the
call returns reward -1.0 and done = false and leaves both the position and
the direction exactly as they were: the move is fully reverted. -/
theorem step_invalid_candidate_reverts (a : QLearningAgent) (action : ℤ)
    (hvalid : a.is_valid_position a.position = true)
    (hcand : a.is_valid_position (a.moveResult action).1 = false) :
    (a.step action).2.1 = -1 ∧ (a.step action).2.2 = false ∧
    (a.step action).1.position = a.position ∧
    (a.step action).1.direction = a.direction := by
  have hdir : (a.moveResult action).2 = a.direction := by
    by_cases h1 : action = 1
    · exfalso
      rw [moveResult_pos_of_turn a action (Or.inl h1), hvalid] at hcand
      exact absurd hcand (by simp)
    · by_cases h2 : action = 2
      · exfalso
        rw [moveResult_pos_of_turn a action (Or.inr h2), hvalid] at hcand
        exact absurd hcand (by simp)
      · exact moveResult_dir_of_not_turn a action h1 h2
  simp only [QLearningAgent.step, is_valid_position_pose_irrel, hcand]
  simp [hdir]

/-- C3 general part plus the concrete 5 by 5 East-bound scenario, packaged as
one statement: a step whose candidate position is valid earns +10.0 with
done = true exactly when that position is the goal (and the agent then sits
on the goal), and the step cost -0.1 with done = false otherwise; on
`demoAgent5` four Forward steps yield -0.1/false three times and then
10.0/true at position `(0, 4)`. -/
theorem step_valid_candidate_rewards :
    (∀ (a : QLearningAgent) (action : ℤ),
        a.is_valid_position (a.moveResult action).1 = true →
        ((a.moveResult action).1 = a.world.goal_position →
            (a.step action).2.1 = 10 ∧ (a.step action).2.2 = true ∧
            (a.step action).1.position = a.world.goal_position) ∧
          ((a.moveResult action).1 ≠ a.world.goal_position →
            (a.step action).2.1 = -1/10 ∧ (a.step action).2.2 = false)) ∧
    ((demoAgent5.step 0).2 = (-1/10, false) ∧
      ((demoAgent5.step 0).1.step 0).2 = (-1/10, false) ∧
      (((demoAgent5.step 0).1.step 0).1.step 0).2 = (-1/10, false) ∧
      ((((demoAgent5.step 0).1.step 0).1.step 0).1.step 0).2 = (10, true) ∧
      ((((demoAgent5.step 0).1.step 0).1.step 0).1.step 0).1.position = (0, 4)) := by
  constructor
  · intro a action hcand
    constructor
    · intro hgoal
      simp only [QLearningAgent.step, is_valid_position_pose_irrel, hcand]
      simp [hgoal]
    · intro hgoal
      simp only [QLearningAgent.step, is_valid_position_pose_irrel, hcand]
      simp [hgoal]
  · exact ⟨rfl, rfl, rfl, rfl, rfl⟩

/-- C4 counterexample: an agent standing on the goal cell that turns right
(action 1) receives reward 10.0 with done = true from `step`, not the
claimed reward -0.1 with done = false — the goal reward is re-triggered by a
rotation in place. -/
theorem rotation_on_goal_retriggers_reward :
    (goalRotAgent.step 1).2.1 = 10 ∧ (goalRotAgent.step 1).2.2 = true ∧
    ¬ ((goalRotAgent.step 1).2.1 = -1/10 ∧ (goalRotAgent.step 1).2.2 = false) := by
  refine ⟨rfl, rfl, fun h => ?_⟩
  exact Bool.noConfusion ((show (goalRotAgent.step 1).2.2 = true from rfl).symm.trans h.2)

/-- C4 as amended: for an agent whose current position is valid, a rotation
action (1 or 2) keeps the position, rotates the direction by +1 or -1 modulo
4, never fails validity, and yields reward -0.1 with done = false when the
agent is off the goal cell — but reward 10.0 with done = true when it is
already standing on the goal (the code re-triggers the goal reward). -/
theorem rotation_step_behaviour (a : QLearningAgent) (action : ℤ)
    (hact : action = 1 ∨ action = 2)
    (hvalid : a.is_valid_position a.position = true) :
    (a.step action).1.position = a.position ∧
    (a.step action).1.direction =
      (if action = 1 then (a.direction + 1) % 4 else (a.direction - 1) % 4) ∧
    (a.position ≠ a.world.goal_position →
      (a.step action).2.1 = -1/10 ∧ (a.step action).2.2 = false) ∧
    (a.position = a.world.goal_position →
      (a.step action).2.1 = 10 ∧ (a.step action).2.2 = true) := by
  rcases hact with h | h <;> subst h <;>
    norm_num [QLearningAgent.step, QLearningAgent.moveResult,
      is_valid_position_pose_irrel, hvalid] <;>
    by_cases hg : a.position = a.world.goal_position <;>
    simp [hg]

/-- Whatever action is taken, `step` does not change the agent's world. -/
theorem step_world_unchanged (a : QLearningAgent) (action : ℤ) :
    (a.step action).1.world = a.world := by
  simp only [QLearningAgent.step]
  split
  · rfl
  · split <;> rfl

/-- Single-step validity preservation, usable for any action value. -/
theorem step_valid_preserved (a : QLearningAgent) (action : ℤ)
    (h : a.is_valid_position a.position = true) :
    (a.step action).1.is_valid_position (a.step action).1.position = true := by
  simp only [QLearningAgent.step]
  split
  · exact h
  · next hv =>
    rw [not_not] at hv
    split
    · exact hv
    · exact hv

/-- Validity preservation along any action list, starting from a valid pose. -/
theorem runActions_valid_preserved (acts : List ℤ) (a : QLearningAgent)
    (h : a.is_valid_position a.position = true) :
    (runActions a acts).is_valid_position (runActions a acts).position = true := by
  induction acts generalizing a with
  | nil => exact h
  | cons act rest ih =>
    simpa [runActions] using ih ((a.step act).1) (step_valid_preserved a act h)

/-- C10: position validity is an invariant of `step` for every action in
0..3, and hence every position reachable from `reset()` on a valid start
cell through such actions is in-bounds and obstacle-free. -/
theorem step_preserves_position_validity :
    (∀ (a : QLearningAgent) (action : ℤ),
        (action = 0 ∨ action = 1 ∨ action = 2 ∨ action = 3) →
        a.is_valid_position a.position = true →
        (a.step action).1.is_valid_position (a.step action).1.position = true) ∧
    (∀ (a : QLearningAgent) (acts : List ℤ),
        (∀ x ∈ acts, x = 0 ∨ x = 1 ∨ x = 2 ∨ x = 3) →
        a.is_valid_position a.world.start_position = true →
        (runActions a.reset.1 acts).is_valid_position
          (runActions a.reset.1 acts).position = true) := by
  constructor
  · intro a action _ h
    exact step_valid_preserved a action h
  · intro a acts _ h
    exact runActions_valid_preserved acts a.reset.1 h

section RepeatedUpdates

variable (a : QLearningAgent) (s : State) (act : Fin 4) (r : ℚ) (s' : State) (d : Bool)

/-- Unfolding one repetition of `update_q_table`. -/
theorem updIter_succ (n : ℕ) :
    updIter a s act r s' d (n + 1) =
      QLearningAgent.update_q_table (updIter a s act r s' d n) s act r s' d :=
  Function.iterate_succ_apply' _ n a

/-- The learning rate is constant along repeated updates. -/
theorem updIter_learning_rate (n : ℕ) :
    (updIter a s act r s' d n).learning_rate = a.learning_rate := by
  induction n with
  | zero => rfl
  | succ n ih => rw [updIter_succ]; exact ih

/-- The discount factor is constant along repeated updates. -/
theorem updIter_discount_factor (n : ℕ) :
    (updIter a s act r s' d n).discount_factor = a.discount_factor := by
  induction n with
  | zero => rfl
  | succ n ih => rw [updIter_succ]; exact ih

/-- Entries of the updated row other than `act` are constant along repeated
updates. -/
theorem updIter_qGet_at (n : ℕ) (i : Fin 4) (hi : i ≠ act) :
    qGet (updIter a s act r s' d n).q_table s i = qGet a.q_table s i := by
  induction n with
  | zero => rfl
  | succ n ih =>
    rw [updIter_succ, update_q_table_qGet_self, Function.update_noteq hi]
    exact ih

/-- Rows of states other than `s` are constant along repeated updates. -/
theorem updIter_qGet_other (n : ℕ) (s'' : State) (hs : s'' ≠ s) :
    qGet (updIter a s act r s' d n).q_table s'' = qGet a.q_table s'' := by
  induction n with
  | zero => rfl
  | succ n ih =>
    rw [updIter_succ, update_q_table_qGet_other _ _ _ _ _ _ _ hs]
    exact ih

/-- Recurrence of the repeated update: each call moves the entry by
`learning_rate` times the distance to the current target. -/
theorem qSeq_succ (n : ℕ) :
    qSeq a s act r s' d (n + 1) =
      qSeq a s act r s' d n +
        a.learning_rate * (qTargetAt a s act r s' d n - qSeq a s act r s' d n) := by
  unfold qSeq qTargetAt
  rw [updIter_succ, update_q_table_qGet_self, Function.update_same,
    updIter_learning_rate, updIter_discount_factor]
  cases d <;> simp

/-- A single update never overshoots: the new value is a convex combination
of the old value and the current target. -/
theorem qSeq_between (h0 : 0 < a.learning_rate) (h1 : a.learning_rate < 1) (n : ℕ) :
    (qSeq a s act r s' d n ≤ qSeq a s act r s' d (n + 1) ∧
        qSeq a s act r s' d (n + 1) ≤ qTargetAt a s act r s' d n) ∨
      (qTargetAt a s act r s' d n ≤ qSeq a s act r s' d (n + 1) ∧
        qSeq a s act r s' d (n + 1) ≤ qSeq a s act r s' d n) := by
  rw [qSeq_succ]
  rcases le_total (qSeq a s act r s' d n) (qTargetAt a s act r s' d n) with h | h
  · left; constructor <;> nlinarith
  · right; constructor <;> nlinarith

/-- Monotonicity of the 4-entry maximum. -/
theorem npMax_mono (v w : QVec) (h : ∀ i, v i ≤ w i) : npMax v ≤ npMax w :=
  max_le_max (max_le_max (max_le_max (h 0) (h 1)) (h 2)) (h 3)

/-- With a non-negative discount factor the target is monotone in the
updated entry (the only table entry that moves along repeated calls). -/
theorem qTargetAt_mono (h2 : 0 ≤ a.discount_factor) (n m : ℕ)
    (h : qSeq a s act r s' d n ≤ qSeq a s act r s' d m) :
    qTargetAt a s act r s' d n ≤ qTargetAt a s act r s' d m := by
  cases d with
  | true => simp [qTargetAt]
  | false =>
    have hM : npMax (qGet (updIter a s act r s' false n).q_table s') ≤
        npMax (qGet (updIter a s act r s' false m).q_table s') := by
      by_cases hs : s' = s
      · subst hs
        apply npMax_mono
        intro i
        by_cases hi : i = act
        · subst hi; exact h
        · rw [updIter_qGet_at _ _ _ _ _ _ n i hi, updIter_qGet_at _ _ _ _ _ _ m i hi]
      · rw [updIter_qGet_other a s act r s' false n s' hs,
          updIter_qGet_other a s act r s' false m s' hs]
    have hg := mul_le_mul_of_nonneg_left hM h2
    simp only [qTargetAt, if_neg (by simp : ¬ (false = true))]
    linarith

/-- Once one repeated call moves the entry up, the next one does too. -/
theorem qSeq_step_up (h0 : 0 < a.learning_rate) (h1 : a.learning_rate < 1)
    (h2 : 0 ≤ a.discount_factor) (n : ℕ)
    (h : qSeq a s act r s' d n ≤ qSeq a s act r s' d (n + 1)) :
    qSeq a s act r s' d (n + 1) ≤ qSeq a s act r s' d (n + 2) := by
  have e1 := qSeq_succ a s act r s' d n
  have e2 := qSeq_succ a s act r s' d (n + 1)
  have hT := qTargetAt_mono a s act r s' d h2 n (n + 1) h
  have h3 : 0 ≤ a.learning_rate * (qTargetAt a s act r s' d n - qSeq a s act r s' d n) := by
    linarith
  have h4 : 0 ≤ qTargetAt a s act r s' d n - qSeq a s act r s' d n := by
    by_contra hc
    push_neg at hc
    nlinarith [mul_neg_of_pos_of_neg h0 hc]
  have h5 : qSeq a s act r s' d (n + 1) ≤ qTargetAt a s act r s' d n := by
    nlinarith [mul_nonneg (by linarith : (0 : ℚ) ≤ 1 - a.learning_rate) h4]
  have h6 : qSeq a s act r s' d (n + 1) ≤ qTargetAt a s act r s' d (n + 1) :=
    le_trans h5 hT
  nlinarith [mul_nonneg (le_of_lt h0) (by linarith :
    (0 : ℚ) ≤ qTargetAt a s act r s' d (n + 1) - qSeq a s act r s' d (n + 1))]

/-- Once one repeated call moves the entry down, the next one does too. -/
theorem qSeq_step_down (h0 : 0 < a.learning_rate) (h1 : a.learning_rate < 1)
    (h2 : 0 ≤ a.discount_factor) (n : ℕ)
    (h : qSeq a s act r s' d (n + 1) ≤ qSeq a s act r s' d n) :
    qSeq a s act r s' d (n + 2) ≤ qSeq a s act r s' d (n + 1) := by
  have e1 := qSeq_succ a s act r s' d n
  have e2 := qSeq_succ a s act r s' d (n + 1)
  have hT := qTargetAt_mono a s act r s' d h2 (n + 1) n h
  have h3 : a.learning_rate * (qTargetAt a s act r s' d n - qSeq a s act r s' d n) ≤ 0 := by
    linarith
  have h4 : qTargetAt a s act r s' d n - qSeq a s act r s' d n ≤ 0 := by
    by_contra hc
    push_neg at hc
    nlinarith [mul_pos h0 hc]
  have h5 : qTargetAt a s act r s' d n ≤ qSeq a s act r s' d (n + 1) := by
    nlinarith [mul_nonpos_of_nonneg_of_nonpos
      (by linarith : (0 : ℚ) ≤ 1 - a.learning_rate) h4]
  have h6 : qTargetAt a s act r s' d (n + 1) ≤ qSeq a s act r s' d (n + 1) :=
    le_trans hT h5
  nlinarith [mul_nonpos_of_nonneg_of_nonpos (le_of_lt h0) (by linarith :
    qTargetAt a s act r s' d (n + 1) - qSeq a s act r s' d (n + 1) ≤ 0)]

end RepeatedUpdates

/-- C5 as amended: for 0 < learning_rate < 1 and a non-negative discount
factor, repeated identical calls to `update_q_table` never overshoot — each
new value of `Q[state][action]` lies between the previous value and the
current target `reward + discount_factor * max(Q[next_state])` (`reward`
when done) — and the produced value sequence is monotone (entirely
non-decreasing or entirely non-increasing). -/
theorem q_update_contraction (a : QLearningAgent) (s : State) (act : Fin 4)
    (r : ℚ) (s' : State) (d : Bool)
    (h0 : 0 < a.learning_rate) (h1 : a.learning_rate < 1)
    (h2 : 0 ≤ a.discount_factor) :
    (∀ n : ℕ,
        (qSeq a s act r s' d n ≤ qSeq a s act r s' d (n + 1) ∧
            qSeq a s act r s' d (n + 1) ≤ qTargetAt a s act r s' d n) ∨
          (qTargetAt a s act r s' d n ≤ qSeq a s act r s' d (n + 1) ∧
            qSeq a s act r s' d (n + 1) ≤ qSeq a s act r s' d n)) ∧
      ((∀ n : ℕ, qSeq a s act r s' d n ≤ qSeq a s act r s' d (n + 1)) ∨
        (∀ n : ℕ, qSeq a s act r s' d (n + 1) ≤ qSeq a s act r s' d n)) := by
  constructor
  · exact qSeq_between a s act r s' d h0 h1
  · rcases le_total (qSeq a s act r s' d 0) (qSeq a s act r s' d 1) with h | h
    · left
      intro n
      induction n with
      | zero => exact h
      | succ n ih => exact qSeq_step_up a s act r s' d h0 h1 h2 n ih
    · right
      intro n
      induction n with
      | zero => exact h
      | succ n ih => exact qSeq_step_down a s act r s' d h0 h1 h2 n ih

/-- Witness for the amended C5 at the source's default hyperparameters. -/
theorem q_update_contraction_witness :
    (∀ n : ℕ,
        (qSeq demoAgent5 (0, 0, 0) 0 1 (0, 0, 0) false n ≤
              qSeq demoAgent5 (0, 0, 0) 0 1 (0, 0, 0) false (n + 1) ∧
            qSeq demoAgent5 (0, 0, 0) 0 1 (0, 0, 0) false (n + 1) ≤
              qTargetAt demoAgent5 (0, 0, 0) 0 1 (0, 0, 0) false n) ∨
          (qTargetAt demoAgent5 (0, 0, 0) 0 1 (0, 0, 0) false n ≤
              qSeq demoAgent5 (0, 0, 0) 0 1 (0, 0, 0) false (n + 1) ∧
            qSeq demoAgent5 (0, 0, 0) 0 1 (0, 0, 0) false (n + 1) ≤
              qSeq demoAgent5 (0, 0, 0) 0 1 (0, 0, 0) false n)) ∧
      ((∀ n : ℕ, qSeq demoAgent5 (0, 0, 0) 0 1 (0, 0, 0) false n ≤
          qSeq demoAgent5 (0, 0, 0) 0 1 (0, 0, 0) false (n + 1)) ∨
        (∀ n : ℕ, qSeq demoAgent5 (0, 0, 0) 0 1 (0, 0, 0) false (n + 1) ≤
          qSeq demoAgent5 (0, 0, 0) 0 1 (0, 0, 0) false n)) :=
  q_update_contraction demoAgent5 (0, 0, 0) 0 1 (0, 0, 0) false
    (by norm_num [demoAgent5]) (by norm_num [demoAgent5]) (by norm_num [demoAgent5])

/-- Agent with a negative discount factor (-10) and learning rate 1/2 whose
Q-table stores the row `(1, 0, 0, 0)` at state `(0,0,0)`. -/
def contraAgent : QLearningAgent :=
  ⟨demoWorld5, 1/2, -10, 1/10, [((0, 0, 0), fun i => if i = 0 then 1 else 0)], (0, 0), 0⟩

/-- C5 counterexample: with `learning_rate = 1/2` (so 0 < α < 1 as the claim
requires) but `discount_factor = -10`, fixed arguments
`state = next_state = (0,0,0)`, `action = 0`, `reward = 0`, `done = false`
and the stored row `(1, 0, 0, 0)`, repeated calls to `update_q_table`
produce the values 1, -9/2, -9/4: the value drops and then rises again, so
the sequence is not monotone and the claim fails as stated. -/
theorem q_update_not_monotone_counterexample :
    qSeq contraAgent (0, 0, 0) 0 0 (0, 0, 0) false 1 <
        qSeq contraAgent (0, 0, 0) 0 0 (0, 0, 0) false 0 ∧
      qSeq contraAgent (0, 0, 0) 0 0 (0, 0, 0) false 1 <
        qSeq contraAgent (0, 0, 0) 0 0 (0, 0, 0) false 2 := by
  have hq0 : qSeq contraAgent (0, 0, 0) 0 0 (0, 0, 0) false 0 = 1 := by decide
  have hM0 : npMax (qGet contraAgent.q_table (0, 0, 0)) = 1 := by decide
  have hT0 : qTargetAt contraAgent (0, 0, 0) 0 0 (0, 0, 0) false 0 = -10 := by
    unfold qTargetAt updIter
    simp only [Function.iterate_zero, id_eq, Bool.false_eq_true, if_false]
    rw [hM0]
    norm_num [contraAgent]
  have e1 := qSeq_succ contraAgent (0, 0, 0) 0 0 (0, 0, 0) false 0
  rw [hq0, hT0, show contraAgent.learning_rate = 1/2 from rfl] at e1
  have hq1 : qSeq contraAgent (0, 0, 0) 0 0 (0, 0, 0) false 1 = -9/2 := by
    rw [e1]; norm_num
  have hv1 : qGet (updIter contraAgent (0, 0, 0) 0 0 (0, 0, 0) false 1).q_table (0, 0, 0) 1 = 0 := by
    rw [updIter_qGet_at contraAgent (0, 0, 0) 0 0 (0, 0, 0) false 1 1 (by decide)]
    decide
  have hv2 : qGet (updIter contraAgent (0, 0, 0) 0 0 (0, 0, 0) false 1).q_table (0, 0, 0) 2 = 0 := by
    rw [updIter_qGet_at contraAgent (0, 0, 0) 0 0 (0, 0, 0) false 1 2 (by decide)]
    decide
  have hv3 : qGet (updIter contraAgent (0, 0, 0) 0 0 (0, 0, 0) false 1).q_table (0, 0, 0) 3 = 0 := by
    rw [updIter_qGet_at contraAgent (0, 0, 0) 0 0 (0, 0, 0) false 1 3 (by decide)]
    decide
  have hM1 : npMax (qGet (updIter contraAgent (0, 0, 0) 0 0 (0, 0, 0) false 1).q_table (0, 0, 0)) = 0 := by
    unfold npMax
    rw [hv1, hv2, hv3,
      show qGet (updIter contraAgent (0, 0, 0) 0 0 (0, 0, 0) false 1).q_table (0, 0, 0) 0 =
        qSeq contraAgent (0, 0, 0) 0 0 (0, 0, 0) false 1 from rfl, hq1]
    norm_num [max_def]
  have hT1 : qTargetAt contraAgent (0, 0, 0) 0 0 (0, 0, 0) false 1 = 0 := by
    unfold qTargetAt
    simp only [Bool.false_eq_true, if_false]
    rw [hM1]
    ring
  have e2 := qSeq_succ contraAgent (0, 0, 0) 0 0 (0, 0, 0) false 1
  rw [hT1, hq1, show contraAgent.learning_rate = 1/2 from rfl] at e2
  have hq2 : qSeq contraAgent (0, 0, 0) 0 0 (0, 0, 0) false 2 = -9/4 := by
    rw [show (2 : ℕ) = 1 + 1 from rfl, e2]; norm_num
  rw [hq0, hq1, hq2]
  norm_num

/-- A 2 by 2 obstacle-free world with start `(0,0)` and goal `(1,1)`. -/
def oscWorld : World :=
  ⟨2, fun _ => 0, (0, 0), (1, 1), []⟩

/-- Agent on `oscWorld` whose greedy policy oscillates: at `(0,0,North)` the
stored row prefers Backward (move to `(1,0)`), at `(1,0,North)` it prefers
Forward (move back to `(0,0)`). -/
def oscAgent : QLearningAgent :=
  ⟨oscWorld, 1/10, 9/10, 1/10,
    [((0, 0, 0), fun i => if i = 3 then 1 else 0),
     ((1, 0, 0), fun i => if i = 0 then 1 else 0)],
    (0, 0), 0⟩

/-- The optimal-path loop appends at most one position per unit of fuel. -/
theorem foLoop_length (fuel : ℕ) : ∀ (a : QLearningAgent) (path : List Pos)
    (steps max_steps : ℕ) (done : Bool),
    (Trainer.foLoop a path steps max_steps done fuel).length ≤ path.length + fuel := by
  induction fuel with
  | zero =>
    intro a path steps max_steps done
    simp [Trainer.foLoop]
  | succ fuel ih =>
    intro a path steps max_steps done
    simp only [Trainer.foLoop]
    split
    · omega
    · split
      · simp
      · refine le_trans (ih _ _ _ _ _) ?_
        simp
        omega

/-- C8: `find_optimal_path(max_steps)` always terminates with a path of at
most `max_steps + 1` positions (start plus at most one position per loop
iteration), and on the oscillating greedy Q-table of `oscAgent` it stops via
the period-2 check after 3 steps — the returned path is
`[(0,0), (1,0), (0,0), (1,0)]` — instead of running to `max_steps = 1000`. -/
theorem find_optimal_path_terminates :
    (∀ (agent : QLearningAgent) (max_steps : ℕ),
        (Trainer.find_optimal_path agent max_steps).length ≤ max_steps + 1) ∧
      Trainer.find_optimal_path oscAgent 1000 = [(0, 0), (1, 0), (0, 0), (1, 0)] := by
  constructor
  · intro agent max_steps
    have h := foLoop_length max_steps agent.reset.1 [agent.reset.1.position] 0 max_steps false
    simp only [List.length_singleton] at h
    exact le_trans h (by omega)
  · rfl

/-- An injected `random.choice` over a non-empty list picks a member. -/
theorem choiceL_mem (l : List Pos) (i : ℕ) (h : 0 < l.length) : choiceL l i ∈ l := by
  have hm : i % l.length < l.length := Nat.mod_lt _ h
  rw [choiceL, List.getD_eq_getElem _ _ hm]
  exact List.getElem_mem hm

/-- Cells collected by the `valid_positions` scan lie inside the grid. -/
theorem validPositions_mem_bounds (size : ℕ) (sample : List ℕ) (p : Pos)
    (hp : p ∈ validPositions size sample) :
    0 ≤ p.1 ∧ p.1 < (size : ℤ) ∧ 0 ≤ p.2 ∧ p.2 < (size : ℤ) := by
  simp only [validPositions, List.mem_flatMap, List.mem_map, List.mem_filter,
    List.mem_range] at hp
  obtain ⟨i, hi, j, ⟨hj, _⟩, rfl⟩ := hp
  refine ⟨Int.natCast_nonneg i, by simpa using hi, Int.natCast_nonneg j, by simpa using hj⟩

/-- The `valid_positions` scan lists every empty cell exactly once. -/
theorem validPositions_nodup (size : ℕ) (sample : List ℕ) :
    (validPositions size sample).Nodup := by
  rw [validPositions, List.nodup_flatMap]
  constructor
  · intro i _
    apply List.Nodup.map_on
    · intro x _ y _ hxy
      have hs : ((x : ℤ)) = ((y : ℤ)) := congrArg Prod.snd hxy
      exact_mod_cast hs
    · exact (List.nodup_range size).filter _
  · refine List.Pairwise.imp ?_ (List.pairwise_lt_range size)
    intro i j hij p hp hq
    simp only [List.mem_map, List.mem_filter, List.mem_range] at hp hq
    obtain ⟨x, _, rfl⟩ := hp
    obtain ⟨y, _, hy⟩ := hq
    have h1 : (j : ℤ) = (i : ℤ) := congrArg Prod.fst hy
    have h2 : j = i := by exact_mod_cast h1
    omega

/-- C7: every successful `World.reset` outcome satisfies the placement
invariant: distinct start and goal positions, neither on an obstacle cell,
both inside the grid — for any sample and any random choice indices. -/
theorem world_reset_start_goal_invariant (size : ℕ) (sample : List ℕ) (sIdx gIdx : ℕ) :
    startGoalOk (World.reset size sample sIdx gIdx) := by
  simp only [World.reset]
  split
  · trivial
  next hlen =>
    have hlen' : 0 < (validPositions size sample).length := by omega
    have hnd := validPositions_nodup size sample
    have hstart : choiceL (validPositions size sample) sIdx ∈ validPositions size sample :=
      choiceL_mem _ sIdx hlen'
    have hgoal_erase :
        (if ((validPositions size sample).erase (choiceL (validPositions size sample) sIdx)
              |>.filter (fun p => max 3 (size / 3) ≤
                World.manhattan_distance (choiceL (validPositions size sample) sIdx) p)).isEmpty
          then choiceL ((validPositions size sample).erase
            (choiceL (validPositions size sample) sIdx)) gIdx
          else choiceL ((validPositions size sample).erase
              (choiceL (validPositions size sample) sIdx)
            |>.filter (fun p => max 3 (size / 3) ≤
              World.manhattan_distance (choiceL (validPositions size sample) sIdx) p)) gIdx) ∈
          (validPositions size sample).erase (choiceL (validPositions size sample) sIdx) := by
      split
      · apply choiceL_mem
        have h1 := List.length_erase_of_mem hstart
        omega
      next hne =>
        refine List.mem_of_mem_filter (choiceL_mem _ gIdx ?_)
        rcases Nat.eq_zero_or_pos (((validPositions size sample).erase
            (choiceL (validPositions size sample) sIdx)
          |>.filter (fun p => max 3 (size / 3) ≤
            World.manhattan_distance (choiceL (validPositions size sample) sIdx) p)).length)
          with h | h
        · exact absurd (by rw [List.isEmpty_iff]; exact List.eq_nil_of_length_eq_zero h) hne
        · exact h
    have hne_goal_start := ((hnd.mem_erase_iff).mp hgoal_erase).1
    have hgoal_vp := List.mem_of_mem_erase hgoal_erase
    refine ⟨fun h => hne_goal_start h.symm, ?_, ?_,
      validPositions_mem_bounds size sample _ hstart,
      validPositions_mem_bounds size sample _ hgoal_vp⟩
    · simp [World.is_obstacle, Function.update_same,
        Function.update_noteq (fun h => hne_goal_start h.symm)]
    · simp [World.is_obstacle, Function.update_same]

/-- C6 as amended: when the injected sample satisfies the `random.sample`
contract — `numObstacles size density` (the truncation
`int(size * size * density)`, not a rounding) distinct flat indices below
`size * size` — every successful `World.reset` outcome carries exactly
`numObstacles size density` obstacles, all distinct cells inside the grid. -/
theorem world_reset_obstacle_count (size : ℕ) (density : ℚ) (sample : List ℕ)
    (sIdx gIdx : ℕ)
    (hlen : sample.length = numObstacles size density)
    (hnd : sample.Nodup)
    (hrange : ∀ x ∈ sample, x < size * size) :
    obstaclesOk size density (World.reset size sample sIdx gIdx) := by
  simp only [World.reset]
  split
  · trivial
  · refine ⟨?_, ?_, ?_⟩
    · simp [obstacleCoords, hlen]
    · apply List.Nodup.map_on ?_ hnd
      intro x hx y hy hxy
      have h1 : ((x / size : ℕ) : ℤ) = ((y / size : ℕ) : ℤ) := congrArg Prod.fst hxy
      have h2 : ((x % size : ℕ) : ℤ) = ((y % size : ℕ) : ℤ) := congrArg Prod.snd hxy
      have h1' : x / size = y / size := by exact_mod_cast h1
      have h2' : x % size = y % size := by exact_mod_cast h2
      have hx' := Nat.div_add_mod x size
      have hy' := Nat.div_add_mod y size
      rw [h1', h2'] at hx'
      exact hx'.symm.trans hy'
    · intro p hp
      simp only [obstacleCoords, List.mem_map] at hp
      obtain ⟨x, hx, rfl⟩ := hp
      have hxr := hrange x hx
      have hsize : 0 < size := by
        rcases Nat.eq_zero_or_pos size with h | h
        · subst h; simp at hxr
        · exact h
      have hdiv : x / size < size := by
        rw [Nat.div_lt_iff_lt_mul hsize]; exact hxr
      have hmod : x % size < size := Nat.mod_lt _ hsize
      refine ⟨Int.natCast_nonneg _, ?_, Int.natCast_nonneg _, ?_⟩
      · show ((x / size : ℕ) : ℤ) < (size : ℤ)
        exact_mod_cast hdiv
      · show ((x % size : ℕ) : ℤ) < (size : ℤ)
        exact_mod_cast hmod

/-- Witness for the amended C6: size 3, density 3/4, sample of the
`numObstacles 3 (3/4) = 6` cells `0..5`. -/
theorem world_reset_obstacle_count_witness :
    obstaclesOk 3 (3/4) (World.reset 3 [0, 1, 2, 3, 4, 5] 0 0) :=
  world_reset_obstacle_count 3 (3/4) [0, 1, 2, 3, 4, 5] 0 0
    (by norm_num [numObstacles]; rfl) (by decide) (by decide)

/-- C6 counterexample: at size = 3, density = 3/4 the generation count is
`int(9 * 0.75) = 6` — and a reset fed a contract-compliant 6-element sample
indeed produces 6 obstacles — whereas `round(9 * 0.75) = 7`, so the claim's
`round` is wrong. -/
theorem obstacle_count_truncates_not_rounds :
    (World.reset 3 [0, 1, 2, 3, 4, 5] 0 0).map (fun w => w.obstacles.length) =
        Except.ok 6 ∧
      [0, 1, 2, 3, 4, 5].length = numObstacles 3 (3/4) ∧
      round ((3 * 3 : ℚ) * (3/4)) = 7 ∧
      numObstacles 3 (3/4) ≠ (round ((3 * 3 : ℚ) * (3/4))).toNat := by
  refine ⟨rfl, by norm_num [numObstacles]; rfl, by rw [round_eq]; norm_num, ?_⟩
  rw [round_eq]
  norm_num [numObstacles]
  decide

/-- Witness for C2: `goalRotAgent` stands at `(0,4)` facing North; Forward
computes the out-of-bounds candidate `(-1,4)`, so the step is reverted with
reward -1.0. -/
theorem step_invalid_candidate_reverts_witness :
    (goalRotAgent.step 0).2.1 = -1 ∧ (goalRotAgent.step 0).2.2 = false ∧
    (goalRotAgent.step 0).1.position = goalRotAgent.position ∧
    (goalRotAgent.step 0).1.direction = goalRotAgent.direction :=
  step_invalid_candidate_reverts goalRotAgent 0 (by decide) (by decide)

/-- Agent on `demoWorld5` one cell West of the goal, facing East. -/
def nearGoalAgent : QLearningAgent :=
  ⟨demoWorld5, 1/10, 9/10, 1/10, [], (0, 3), 1⟩

/-- Witness for C3: from `(0,3)` facing East, Forward reaches the goal
`(0,4)` with reward 10.0 and done = true. -/
theorem step_valid_candidate_rewards_witness :
    (nearGoalAgent.step 0).2.1 = 10 ∧ (nearGoalAgent.step 0).2.2 = true ∧
    (nearGoalAgent.step 0).1.position = nearGoalAgent.world.goal_position :=
  (step_valid_candidate_rewards.1 nearGoalAgent 0 (by decide)).1 (by decide)

/-- Witness for the amended C4 at an agent standing on the goal cell. -/
theorem rotation_step_behaviour_witness :
    (goalRotAgent.step 1).1.position = goalRotAgent.position ∧
    (goalRotAgent.step 1).1.direction =
      (if (1 : ℤ) = 1 then (goalRotAgent.direction + 1) % 4
        else (goalRotAgent.direction - 1) % 4) ∧
    (goalRotAgent.position ≠ goalRotAgent.world.goal_position →
      (goalRotAgent.step 1).2.1 = -1/10 ∧ (goalRotAgent.step 1).2.2 = false) ∧
    (goalRotAgent.position = goalRotAgent.world.goal_position →
      (goalRotAgent.step 1).2.1 = 10 ∧ (goalRotAgent.step 1).2.2 = true) :=
  rotation_step_behaviour goalRotAgent 1 (Or.inl rfl) (by decide)

/-- Witness for C10: on `demoAgent5` the start cell is valid, and the action
sequence Forward, TurnRight, Backward, TurnLeft keeps the pose valid. -/
theorem step_preserves_position_validity_witness :
    (runActions demoAgent5.reset.1 [0, 1, 3, 2]).is_valid_position
      (runActions demoAgent5.reset.1 [0, 1, 3, 2]).position = true :=
  step_preserves_position_validity.2 demoAgent5 [0, 1, 3, 2] (by decide) (by decide)
